import Mathlib

/-!
Shallow embedding of the `gridlife` crate (Conway's Game of Life grid engine,
`src/lib.rs`) and proofs of its specification properties.

Machine integers are modelled as follows: `usize` values (`width`, `height`,
vector indices, `population`) become `Nat`; the `i32` coordinate type `Coord`
and the `i32` neighbour counters become `Int`.  A Rust `panic!` (index out of
bounds, or the `%`/`/` by zero reached in `pos` when `width == 0`) is modelled
by an `Option` result, `none` standing for the panic.  The random source used
by the constructors (`fastrand::bool`) is modelled by an explicit stream of
booleans, one per generated cell.
-/

set_option autoImplicit false

namespace Gridlife

/-- A grid coordinate, mirroring `struct Point { x: Coord, y: Coord }` where
`type Coord = i32` is modelled as `Int`. -/
structure Point where
  x : Int
  y : Int
  deriving DecidableEq, Repr

/-- `impl Add for Point`: componentwise addition. -/
def Point.add (p q : Point) : Point :=
  Point.mk (p.x + q.x) (p.y + q.y)

instance : Add Point := ⟨Point.add⟩

/-- The eight neighbour offsets `ORTHO_PLUS_DIR`, in source order
`[NORTH, NORTH_EAST, EAST, SOUTH_EAST, SOUTH, SOUTH_WEST, WEST, NORTH_WEST]`. -/
def ORTHO_PLUS_DIR : List Point :=
  [Point.mk 0 (-1), Point.mk 1 (-1), Point.mk 1 0, Point.mk 1 1,
   Point.mk 0 1, Point.mk (-1) 1, Point.mk (-1) 0, Point.mk (-1) (-1)]

/-- `enum CellState { Alive(char), Dead(char) }`. -/
inductive CellState where
  | Alive (c : Char)
  | Dead (c : Char)
  deriving DecidableEq, Repr

/-- The derived `PartialEq` on `CellState`: same variant and equal glyphs. -/
def cellEq : CellState → CellState → Bool
  | CellState.Alive a, CellState.Alive b => a == b
  | CellState.Dead a, CellState.Dead b => a == b
  | _, _ => false

/-- `struct NeighbourState { dead: i32, alive: i32 }`. -/
structure NeighbourState where
  dead : Int
  alive : Int
  deriving DecidableEq, Repr

/-- `struct Grid<T>` specialised to `T = CellState`, field for field. -/
structure Grid where
  width : Nat
  height : Nat
  cells : List CellState
  dead_glyph : Char
  alive_glyph : Char
  population : Nat
  deriving DecidableEq, Repr

/-- `Grid::contains`: `p.x >= 0 && (p.x as usize) < width && p.y >= 0 &&
(p.y as usize) < height`.  The `as usize` casts sit behind the sign guards,
so `Int.toNat` is a faithful model of them here. -/
def contains (g : Grid) (p : Point) : Bool :=
  decide (0 ≤ p.x) && decide (p.x.toNat < g.width) &&
    decide (0 ≤ p.y) && decide (p.y.toNat < g.height)

/-- `Grid::pos`: `Point::new((p % width) as i32, (p / width) as i32)`.
When `width == 0` the Rust `%` panics, modelled by `none`. -/
def pos (g : Grid) (p : Nat) : Option Point :=
  if g.width = 0 then none
  else some (Point.mk ((p % g.width : Nat) : Int) ((p / g.width : Nat) : Int))

/-- `Grid::idx`: `((width as i32) * p.y + p.x) as usize` before the cast. -/
def idx (g : Grid) (p : Point) : Int :=
  (g.width : Int) * p.y + p.x

/-- `impl Index<Point> for Grid`: `cells[idx(p)]`.  A negative `idx` casts to
a huge `usize`, and any index `≥ cells.len()` panics; both are `none`. -/
def indexGrid (g : Grid) (p : Point) : Option CellState :=
  if 0 ≤ idx g p then g.cells[(idx g p).toNat]? else none

/-- `Grid::try_get`: `if contains(p) { Some(self[p]) } else { None }`.
The panic of `self[p]` on an invariant-breaking grid is also `none`. -/
def tryGet (g : Grid) (p : Point) : Option CellState :=
  if contains g p then indexGrid g p else none

/-- `Grid::get_neighbours`: offsets added to `point`, filtered by `contains`. -/
def getNeighbours (g : Grid) (p : Point) : List Point :=
  (ORTHO_PLUS_DIR.map (fun d => p + d)).filter (fun q => contains g q)

/-- The counting loop of `Grid::get_neighbours_state` over a list of
candidate points, accumulating into a `NeighbourState`. -/
def countNbrs (g : Grid) : List Point → NeighbourState → NeighbourState
  | [], s => s
  | q :: qs, s =>
    match tryGet g q with
    | some (CellState.Alive _) => countNbrs g qs (NeighbourState.mk s.dead (s.alive + 1))
    | some (CellState.Dead _) => countNbrs g qs (NeighbourState.mk (s.dead + 1) s.alive)
    | none => countNbrs g qs s

/-- `Grid::get_neighbours_state`. -/
def getNeighboursState (g : Grid) (p : Point) : NeighbourState :=
  countNbrs g (getNeighbours g p) (NeighbourState.mk 0 0)

/-- `Grid::get_cell_state`, the transition rule.  The source matches on
`(cell, state.alive)` with the `i32` ranges `0..=1`, `2..=3`, `4..=8`,
then `(Dead(_), 3)`, then the wildcard returning `*cell`. -/
def get_cell_state (g : Grid) (cell : CellState) (state : NeighbourState) : CellState :=
  match cell with
  | CellState.Alive _ =>
    if 0 ≤ state.alive ∧ state.alive ≤ 1 then CellState.Dead g.dead_glyph
    else if 2 ≤ state.alive ∧ state.alive ≤ 3 then CellState.Alive g.alive_glyph
    else if 4 ≤ state.alive ∧ state.alive ≤ 8 then CellState.Dead g.dead_glyph
    else cell
  | CellState.Dead _ =>
    if state.alive = 3 then CellState.Alive g.alive_glyph else cell

/-- `Grid::calculate_population`: cells equal (derived `PartialEq`) to
`Alive(alive_glyph)`. -/
def calculate_population (g : Grid) : Nat :=
  (g.cells.filter (fun c => cellEq c (CellState.Alive g.alive_glyph))).length

/-- The `for (idx, &cell) in cells.iter().enumerate()` loop of
`update_states`, pushing each new cell in order; `k` is the index of the
first remaining cell. -/
def buildNew (g : Grid) : Nat → List CellState → Option (List CellState)
  | _, [] => some []
  | k, c :: cs => do
    let p ← pos g k
    let rest ← buildNew g (k + 1) cs
    pure (get_cell_state g c (getNeighboursState g p) :: rest)

/-- `Grid::update_states`: replace `cells` by the new generation, then
recompute `population` on the new sequence. -/
def update_states (g : Grid) : Option Grid :=
  match buildNew g 0 g.cells with
  | none => none
  | some nc =>
    let g2 : Grid := { g with cells := nc }
    some { g2 with population := calculate_population g2 }

/-- `impl Default for Grid<CellState>`: 10×10, all `Dead(' ')`, glyphs
`'X'`/`' '`, population 0. -/
def default_grid : Grid :=
  { width := 10, height := 10,
    cells := (List.range (10 * 10)).map (fun _ => CellState.Dead ' '),
    dead_glyph := ' ', alive_glyph := 'X', population := 0 }

/-- `Grid::new_empty`: all cells `Dead(' ')`, remaining fields from default. -/
def new_empty (width height : Nat) : Grid :=
  { width := width, height := height,
    cells := (List.range (width * height)).map (fun _ => CellState.Dead ' '),
    dead_glyph := default_grid.dead_glyph, alive_glyph := default_grid.alive_glyph,
    population := default_grid.population }

/-- `Grid::generate_random_cells` with the random source made explicit:
`coins i` is the `fastrand::bool()` draw for cell `i`. -/
def generate_random_cells (size : Nat) (alive_glyph dead_glyph : Char)
    (coins : Nat → Bool) : List CellState :=
  (List.range size).map
    (fun i => if coins i then CellState.Alive alive_glyph else CellState.Dead dead_glyph)

/-- `Grid::new_random`: random cells with the default glyphs, all other
fields — including `population` — taken from `Self::default()`. -/
def new_random (width height : Nat) (coins : Nat → Bool) : Grid :=
  { width := width, height := height,
    cells := generate_random_cells (width * height)
      default_grid.alive_glyph default_grid.dead_glyph coins,
    dead_glyph := default_grid.dead_glyph, alive_glyph := default_grid.alive_glyph,
    population := default_grid.population }

/-- `Grid::new_random_custom_glyphs`: random cells with the given glyphs and
`population` counted over the freshly generated cells. -/
def new_random_custom_glyphs (width height : Nat) (alive_glyph dead_glyph : Char)
    (coins : Nat → Bool) : Grid :=
  let cells := generate_random_cells (width * height) alive_glyph dead_glyph coins
  { width := width, height := height, cells := cells,
    alive_glyph := alive_glyph, dead_glyph := dead_glyph,
    population := (cells.filter (fun c => cellEq c (CellState.Alive alive_glyph))).length }

/-- The character written for a cell by `impl Display for CellState`
(`Alive(c)` and `Dead(c)` both print `c`). -/
def displayCellChars : CellState → List Char
  | CellState.Alive c => [c]
  | CellState.Dead c => [c]

/-- The inner `for w in row*width..(row+1)*width` loop of
`impl Display for Grid`: appends `cells[w]`'s glyph for each listed index,
panicking (`none`) on an out-of-range index. -/
def rowChars (g : Grid) : List Nat → List Char → Option (List Char)
  | [], acc => some acc
  | w :: ws, acc =>
    match g.cells[w]? with
    | some c => rowChars g ws (acc ++ displayCellChars c)
    | none => none

/-- The outer `for row in 0..height` loop of `impl Display for Grid`:
each row's glyphs followed by `writeln!`'s newline. -/
def gridChars (g : Grid) : List Nat → List Char → Option (List Char)
  | [], acc => some acc
  | r :: rs, acc =>
    match rowChars g (List.range' (r * g.width) g.width) acc with
    | some line => gridChars g rs (line ++ ['\n'])
    | none => none

/-- `impl Display for Grid<CellState>` as the character sequence written. -/
def displayGrid (g : Grid) : Option (List Char) :=
  gridChars g (List.range g.height) []

/-! Specification-side definitions, written from the spec's words, used to
state the claims against the embedded code. -/

/-- Whether a cell carries the `Alive` tag, ignoring the glyph. -/
def isAliveTag : CellState → Bool
  | CellState.Alive _ => true
  | CellState.Dead _ => false

/-- The glyph character a cell carries. -/
def glyphOf : CellState → Char
  | CellState.Alive c => c
  | CellState.Dead c => c

/-- The cell stored at the row-major index `y*width + x` of a coordinate. -/
def cellAt (g : Grid) (p : Point) : Option CellState :=
  g.cells[(p.y.toNat * g.width + p.x.toNat)]?

/-- Whether the cell stored at a coordinate is `Alive`-tagged. -/
def specAliveAt (g : Grid) (p : Point) : Bool :=
  match cellAt g p with
  | some c => isAliveTag c
  | none => false

/-- The number of `Alive` cells among the in-bounds 8-connected neighbours of
`p` (out-of-bounds offsets skipped, no wraparound). -/
def specAliveCount (g : Grid) (p : Point) : Nat :=
  ((ORTHO_PLUS_DIR.map (fun d => p + d)).filter
    (fun q => contains g q && specAliveAt g q)).length

/-- The Game-of-Life transition rule as the spec states it: `Alive` with 0–1
alive neighbours dies, with 2–3 stays alive, with 4–8 dies; `Dead` with
exactly 3 alive neighbours becomes alive; anything else is unchanged. -/
def lifeRule (alive_glyph dead_glyph : Char) (c : CellState) (n : Nat) : CellState :=
  match c with
  | CellState.Alive _ =>
    if n ≤ 1 then CellState.Dead dead_glyph
    else if 2 ≤ n ∧ n ≤ 3 then CellState.Alive alive_glyph
    else if 4 ≤ n ∧ n ≤ 8 then CellState.Dead dead_glyph
    else c
  | CellState.Dead _ =>
    if n = 3 then CellState.Alive alive_glyph else c

/-- The rendering the spec describes: for each row top to bottom, the glyphs
of its cells left to right, followed by a newline. -/
def specRender (g : Grid) : List Char :=
  ((List.range g.height).map
    (fun r => ((g.cells.drop (r * g.width)).take g.width).map glyphOf ++ ['\n'])).flatten

/-- A 3×3 grid with only the centre cell alive, default glyphs. -/
def centerGrid : Grid :=
  { width := 3, height := 3,
    cells := [CellState.Dead ' ', CellState.Dead ' ', CellState.Dead ' ',
              CellState.Dead ' ', CellState.Alive 'X', CellState.Dead ' ',
              CellState.Dead ' ', CellState.Dead ' ', CellState.Dead ' '],
    dead_glyph := ' ', alive_glyph := 'X', population := 1 }

/-- A 1×1 grid holding one alive cell, dead glyph `' '`. -/
def cexGlyphA : Grid :=
  { width := 1, height := 1, cells := [CellState.Alive 'X'],
    dead_glyph := ' ', alive_glyph := 'X', population := 1 }

/-- The same grid as `cexGlyphA` except that its dead glyph is `'#'`. -/
def cexGlyphB : Grid :=
  { width := 1, height := 1, cells := [CellState.Alive 'X'],
    dead_glyph := '#', alive_glyph := 'X', population := 1 }

/-- The same grid as `cexGlyphA` except that its population field is stale. -/
def cexPopB : Grid :=
  { width := 1, height := 1, cells := [CellState.Alive 'X'],
    dead_glyph := ' ', alive_glyph := 'X', population := 7 }

/-! Lemmas about bounds checking and checked lookup. -/

theorem contains_iff (g : Grid) (p : Point) :
    contains g p = true ↔
      0 ≤ p.x ∧ p.x < (g.width : Int) ∧ 0 ≤ p.y ∧ p.y < (g.height : Int) := by
  simp only [contains, Bool.and_eq_true, decide_eq_true_eq]
  constructor
  · rintro ⟨⟨⟨h1, h2⟩, h3⟩, h4⟩
    refine ⟨h1, ?_, h3, ?_⟩ <;> omega
  · rintro ⟨h1, h2, h3, h4⟩
    refine ⟨⟨⟨h1, ?_⟩, h3⟩, ?_⟩ <;> omega

theorem rowMajor_lt (g : Grid) (hlen : g.cells.length = g.width * g.height)
    (p : Point) (hc : contains g p = true) :
    p.y.toNat * g.width + p.x.toNat < g.cells.length := by
  rcases (contains_iff g p).1 hc with ⟨hx0, hxw, hy0, hyh⟩
  have hxw2 : p.x.toNat < g.width := by omega
  have hyh2 : p.y.toNat < g.height := by omega
  rw [hlen]
  calc p.y.toNat * g.width + p.x.toNat
      < p.y.toNat * g.width + g.width := by omega
    _ = (p.y.toNat + 1) * g.width := by ring
    _ ≤ g.height * g.width := Nat.mul_le_mul_right _ (by omega)
    _ = g.width * g.height := Nat.mul_comm _ _

theorem idx_of_nonneg (g : Grid) (p : Point) (hx : 0 ≤ p.x) (hy : 0 ≤ p.y) :
    idx g p = ((p.y.toNat * g.width + p.x.toNat : Nat) : Int) := by
  have hxa : p.x = (p.x.toNat : Int) := (Int.toNat_of_nonneg hx).symm
  have hya : p.y = (p.y.toNat : Int) := (Int.toNat_of_nonneg hy).symm
  rw [idx]
  push_cast
  rw [← hxa, ← hya]
  ring

theorem tryGet_of_contains (g : Grid) (hlen : g.cells.length = g.width * g.height)
    (p : Point) (hc : contains g p = true) :
    tryGet g p = cellAt g p ∧ ∃ c, cellAt g p = some c := by
  rcases (contains_iff g p).1 hc with ⟨hx0, _, hy0, _⟩
  have hidx := idx_of_nonneg g p hx0 hy0
  have hlt := rowMajor_lt g hlen p hc
  constructor
  · rw [tryGet, if_pos hc, indexGrid, hidx, cellAt]
    rw [if_pos (by positivity)]
    rw [Int.toNat_natCast]
  · exact ⟨_, List.getElem?_eq_getElem hlt⟩

theorem tryGet_of_not_contains (g : Grid) (p : Point) (hc : contains g p = false) :
    tryGet g p = none := by
  rw [tryGet, hc]
  rfl

/-! Lemmas about the neighbour count. -/

theorem countNbrs_alive_spec (g : Grid) (hlen : g.cells.length = g.width * g.height) :
    ∀ (qs : List Point) (s : NeighbourState),
      (∀ q ∈ qs, contains g q = true) →
      (countNbrs g qs s).alive =
        s.alive + ((qs.filter (fun q => specAliveAt g q)).length : Int) := by
  intro qs
  induction qs with
  | nil => intro s _; simp [countNbrs]
  | cons q qs ih =>
    intro s h
    obtain ⟨hget, c, hc⟩ := tryGet_of_contains g hlen q (h q (List.mem_cons_self q qs))
    have htail : ∀ r ∈ qs, contains g r = true :=
      fun r hr => h r (List.mem_cons_of_mem q hr)
    have halive : specAliveAt g q = isAliveTag c := by
      rw [specAliveAt, hc]
    rw [countNbrs, hget, hc]
    cases c with
    | Alive ch =>
      rw [ih _ htail, List.filter_cons, if_pos (by simp [halive, isAliveTag])]
      simp only [NeighbourState.alive, List.length_cons]
      push_cast
      ring
    | Dead ch =>
      rw [ih _ htail, List.filter_cons, if_neg (by simp [halive, isAliveTag])]

theorem countNbrs_alive_le (g : Grid) :
    ∀ (qs : List Point) (s : NeighbourState),
      s.alive ≤ (countNbrs g qs s).alive ∧
      (countNbrs g qs s).alive ≤ s.alive + qs.length := by
  intro qs
  induction qs with
  | nil => intro s; simp [countNbrs]
  | cons q qs ih =>
    intro s
    rw [countNbrs]
    rcases htg : tryGet g q with _ | c
    · have := ih s
      simp only [List.length_cons]
      push_cast
      constructor <;> omega
    · cases c with
      | Alive ch =>
        have := ih (NeighbourState.mk s.dead (s.alive + 1))
        simp only [List.length_cons] at this ⊢
        push_cast at this ⊢
        constructor <;> omega
      | Dead ch =>
        have := ih (NeighbourState.mk (s.dead + 1) s.alive)
        simp only [List.length_cons] at this ⊢
        push_cast at this ⊢
        constructor <;> omega

theorem getNeighbours_all_contained (g : Grid) (p : Point) :
    ∀ q ∈ getNeighbours g p, contains g q = true := by
  intro q hq
  exact (List.mem_filter.1 hq).2

theorem getNeighbours_length_le (g : Grid) (p : Point) :
    (getNeighbours g p).length ≤ 8 := by
  calc (getNeighbours g p).length
      ≤ (ORTHO_PLUS_DIR.map (fun d => p + d)).length := List.length_filter_le _ _
    _ = 8 := by simp [ORTHO_PLUS_DIR]

theorem getNeighboursState_alive_eq (g : Grid)
    (hlen : g.cells.length = g.width * g.height) (p : Point) :
    (getNeighboursState g p).alive = (specAliveCount g p : Int) := by
  rw [getNeighboursState,
    countNbrs_alive_spec g hlen _ _ (getNeighbours_all_contained g p)]
  rw [getNeighbours, specAliveCount, List.filter_filter]
  simp only [NeighbourState.alive, Int.zero_add, Nat.cast_inj]
  exact congrArg List.length (List.filter_congr (fun x _ => Bool.and_comm _ _))

theorem getNeighboursState_alive_bounds (g : Grid) (p : Point) :
    0 ≤ (getNeighboursState g p).alive ∧ (getNeighboursState g p).alive ≤ 8 := by
  have h := countNbrs_alive_le g (getNeighbours g p) (NeighbourState.mk 0 0)
  have hl := getNeighbours_length_le g p
  rw [getNeighboursState]
  have hb : (NeighbourState.mk 0 0).alive = 0 := rfl
  constructor
  · have := h.1
    omega
  · have := h.2
    omega

theorem specAliveCount_le (g : Grid) (p : Point) : specAliveCount g p ≤ 8 := by
  calc specAliveCount g p
      ≤ (ORTHO_PLUS_DIR.map (fun d => p + d)).length := List.length_filter_le _ _
    _ = 8 := by simp [ORTHO_PLUS_DIR]

/-! The transition rule. -/

theorem get_cell_state_eq_lifeRule (g : Grid) (c : CellState) (s : NeighbourState)
    (n : Nat) (hs : s.alive = (n : Int)) (hn : n ≤ 8) :
    get_cell_state g c s = lifeRule g.alive_glyph g.dead_glyph c n := by
  cases c <;> simp only [get_cell_state, lifeRule, hs] <;>
    split_ifs <;> first | rfl | (exfalso; omega)

/-! Lemmas about the generation-advance loop. -/

theorem buildNew_length (g : Grid) :
    ∀ (cs : List CellState) (k : Nat) (l : List CellState),
      buildNew g k cs = some l → l.length = cs.length := by
  intro cs
  induction cs with
  | nil =>
    intro k l h
    simp only [buildNew, Option.some.injEq] at h
    rw [← h]
  | cons c cs ih =>
    intro k l h
    rcases hp : pos g k with _ | p <;> rcases hb : buildNew g (k + 1) cs with _ | rest <;>
      simp only [buildNew, hp, hb, Option.bind_eq_bind, Option.none_bind, Option.some_bind,
        Option.pure_def, Option.some.injEq, reduceCtorEq] at h
    rw [← h]
    simp [ih (k + 1) rest hb]

theorem buildNew_mem (g : Grid) :
    ∀ (cs : List CellState) (k : Nat) (l : List CellState),
      buildNew g k cs = some l →
      ∀ x ∈ l, ∃ c p, x = get_cell_state g c (getNeighboursState g p) := by
  intro cs
  induction cs with
  | nil =>
    intro k l h x hx
    simp only [buildNew, Option.some.injEq] at h
    rw [← h] at hx
    simp at hx
  | cons c cs ih =>
    intro k l h x hx
    rcases hp : pos g k with _ | p <;> rcases hb : buildNew g (k + 1) cs with _ | rest <;>
      simp only [buildNew, hp, hb, Option.bind_eq_bind, Option.none_bind, Option.some_bind,
        Option.pure_def, Option.some.injEq, reduceCtorEq] at h
    rw [← h] at hx
    rcases List.mem_cons.1 hx with hx | hx
    · exact ⟨c, p, hx⟩
    · exact ih (k + 1) rest hb x hx

theorem pos_of_width_ne_zero (g : Grid) (hw : g.width ≠ 0) (k : Nat) :
    pos g k = some (Point.mk ((k % g.width : Nat) : Int) ((k / g.width : Nat) : Int)) := by
  rw [pos, if_neg hw]

theorem buildNew_get (g : Grid) (hw : g.width ≠ 0) :
    ∀ (cs : List CellState) (k : Nat),
      ∃ l, buildNew g k cs = some l ∧
        ∀ j : Nat, l[j]? = (cs[j]?).map
          (fun c => get_cell_state g c (getNeighboursState g
            (Point.mk (((k + j) % g.width : Nat) : Int) (((k + j) / g.width : Nat) : Int)))) := by
  intro cs
  induction cs with
  | nil =>
    intro k
    exact ⟨[], rfl, fun j => rfl⟩
  | cons c cs ih =>
    intro k
    obtain ⟨rest, hrest, hget⟩ := ih (k + 1)
    refine ⟨get_cell_state g c (getNeighboursState g
      (Point.mk ((k % g.width : Nat) : Int) ((k / g.width : Nat) : Int))) :: rest, ?_, ?_⟩
    · simp [buildNew, pos_of_width_ne_zero g hw, hrest]
    · intro j
      cases j with
      | zero => simp
      | succ j =>
        have hkj : k + 1 + j = k + (j + 1) := by omega
        have := hget j
        rw [hkj] at this
        simpa using this

theorem update_states_of_buildNew (g : Grid) (nc : List CellState)
    (h : buildNew g 0 g.cells = some nc) :
    update_states g = some { g with
      cells := nc
      population := (nc.filter (fun c => cellEq c (CellState.Alive g.alive_glyph))).length } := by
  rw [update_states, h]
  rfl

theorem width_ne_zero_of_index (g : Grid) (hlen : g.cells.length = g.width * g.height)
    (i : Nat) (hi : i < g.cells.length) : g.width ≠ 0 := by
  intro h0
  rw [h0] at hlen
  omega

theorem get_cell_state_tag_eq (g : Grid) (c : CellState) (s : NeighbourState)
    (h0 : 0 ≤ s.alive) (h8 : s.alive ≤ 8) :
    cellEq (get_cell_state g c s) (CellState.Alive g.alive_glyph) =
      isAliveTag (get_cell_state g c s) := by
  cases c <;> simp only [get_cell_state] <;> split_ifs <;>
    first
      | (exfalso; omega)
      | simp [cellEq, isAliveTag]

theorem update_states_population_aux (g g2 : Grid) (h : update_states g = some g2) :
    g2.population = (g2.cells.filter (fun c => isAliveTag c)).length := by
  rcases hb : buildNew g 0 g.cells with _ | nc
  · rw [update_states, hb] at h
    exact absurd h (by simp)
  · have h2 := update_states_of_buildNew g nc hb
    rw [h] at h2
    have hcells : g2.cells = nc := by rw [Option.some.injEq] at h2; rw [h2]
    have hag : g2.alive_glyph = g.alive_glyph := by rw [Option.some.injEq] at h2; rw [h2]
    have hpop : g2.population =
        (nc.filter (fun c => cellEq c (CellState.Alive g.alive_glyph))).length := by
      rw [Option.some.injEq] at h2
      rw [h2]
    rw [hpop, hcells]
    apply congrArg List.length
    apply List.filter_congr
    intro x hx
    obtain ⟨c, p, hcp⟩ := buildNew_mem g g.cells 0 nc hb x hx
    obtain ⟨hb0, hb8⟩ := getNeighboursState_alive_bounds g p
    rw [hcp]
    exact get_cell_state_tag_eq g c (getNeighboursState g p) hb0 hb8

theorem update_states_of_nil (g : Grid) (h : g.cells = []) :
    update_states g = some { g with cells := ([] : List CellState), population := 0 } := by
  rw [update_states, h]
  rfl

/-! `update_states` never reads the stored `population` field: two grids that
agree on every other field behave identically.  The lemmas walk down the call
graph of `update_states`. -/

theorem tryGet_pop (w h : Nat) (cs : List CellState) (dg ag : Char) (p1 p2 : Nat) (q : Point) :
    tryGet (Grid.mk w h cs dg ag p1) q = tryGet (Grid.mk w h cs dg ag p2) q := rfl

theorem getNeighbours_pop (w h : Nat) (cs : List CellState) (dg ag : Char) (p1 p2 : Nat)
    (q : Point) :
    getNeighbours (Grid.mk w h cs dg ag p1) q = getNeighbours (Grid.mk w h cs dg ag p2) q := rfl

theorem get_cell_state_pop (w h : Nat) (cs : List CellState) (dg ag : Char) (p1 p2 : Nat)
    (c : CellState) (s : NeighbourState) :
    get_cell_state (Grid.mk w h cs dg ag p1) c s =
      get_cell_state (Grid.mk w h cs dg ag p2) c s := rfl

theorem pos_pop (w h : Nat) (cs : List CellState) (dg ag : Char) (p1 p2 : Nat) (k : Nat) :
    pos (Grid.mk w h cs dg ag p1) k = pos (Grid.mk w h cs dg ag p2) k := rfl

theorem countNbrs_pop (w h : Nat) (cs : List CellState) (dg ag : Char) (p1 p2 : Nat) :
    ∀ (qs : List Point) (s : NeighbourState),
      countNbrs (Grid.mk w h cs dg ag p1) qs s = countNbrs (Grid.mk w h cs dg ag p2) qs s := by
  intro qs
  induction qs with
  | nil => intro s; rfl
  | cons q qs ih =>
    intro s
    rw [countNbrs, countNbrs, tryGet_pop w h cs dg ag p1 p2 q]
    rcases tryGet (Grid.mk w h cs dg ag p2) q with _ | c
    · exact ih _
    · cases c <;> exact ih _

theorem getNeighboursState_pop (w h : Nat) (cs : List CellState) (dg ag : Char) (p1 p2 : Nat)
    (q : Point) :
    getNeighboursState (Grid.mk w h cs dg ag p1) q =
      getNeighboursState (Grid.mk w h cs dg ag p2) q := by
  rw [getNeighboursState, getNeighboursState, getNeighbours_pop w h cs dg ag p1 p2 q,
    countNbrs_pop w h cs dg ag p1 p2]

theorem buildNew_pop (w h : Nat) (cs0 : List CellState) (dg ag : Char) (p1 p2 : Nat) :
    ∀ (cs : List CellState) (k : Nat),
      buildNew (Grid.mk w h cs0 dg ag p1) k cs = buildNew (Grid.mk w h cs0 dg ag p2) k cs := by
  intro cs
  induction cs with
  | nil => intro k; rfl
  | cons c cs ih =>
    intro k
    rw [buildNew, buildNew, pos_pop w h cs0 dg ag p1 p2 k]
    simp only [ih, getNeighboursState_pop w h cs0 dg ag p1 p2,
      get_cell_state_pop w h cs0 dg ag p1 p2]

theorem update_states_pop (w h : Nat) (cs : List CellState) (dg ag : Char) (p1 p2 : Nat) :
    update_states (Grid.mk w h cs dg ag p1) = update_states (Grid.mk w h cs dg ag p2) := by
  rw [update_states, update_states, buildNew_pop w h cs dg ag p1 p2]
  rcases buildNew (Grid.mk w h cs dg ag p2) 0 cs with _ | nc
  · rfl
  · rfl

/-! Lemmas about the textual rendering. -/

theorem displayCellChars_eq (c : CellState) : displayCellChars c = [glyphOf c] := by
  cases c <;> rfl

theorem rowChars_cons_some (g : Grid) (w : Nat) (ws : List Nat) (acc : List Char)
    (c : CellState) (h : g.cells[w]? = some c) :
    rowChars g (w :: ws) acc = rowChars g ws (acc ++ displayCellChars c) := by
  rw [rowChars, h]

theorem gridChars_cons_some (g : Grid) (r : Nat) (rs : List Nat) (acc line : List Char)
    (h : rowChars g (List.range' (r * g.width) g.width) acc = some line) :
    gridChars g (r :: rs) acc = gridChars g rs (line ++ ['\n']) := by
  rw [gridChars, h]

theorem rowChars_spec (g : Grid) :
    ∀ (len start : Nat) (acc : List Char), start + len ≤ g.cells.length →
      rowChars g (List.range' start len) acc =
        some (acc ++ ((g.cells.drop start).take len).map glyphOf) := by
  intro len
  induction len with
  | zero =>
    intro start acc _
    simp [rowChars]
  | succ n ih =>
    intro start acc hle
    have hlt : start < g.cells.length := by omega
    rw [List.range'_succ,
      rowChars_cons_some g start _ acc g.cells[start] (List.getElem?_eq_getElem hlt),
      ih (start + 1) (acc ++ displayCellChars g.cells[start]) (by omega),
      List.drop_eq_getElem_cons hlt, List.take_succ_cons, List.map_cons,
      displayCellChars_eq]
    simp

theorem gridChars_spec (g : Grid) :
    ∀ (rs : List Nat) (acc : List Char),
      (∀ r ∈ rs, r * g.width + g.width ≤ g.cells.length) →
      gridChars g rs acc =
        some (acc ++ (rs.map
          (fun r => ((g.cells.drop (r * g.width)).take g.width).map glyphOf ++ ['\n'])).flatten) := by
  intro rs
  induction rs with
  | nil =>
    intro acc _
    simp [gridChars]
  | cons r rs ih =>
    intro acc h
    rw [gridChars_cons_some g r rs acc _
        (rowChars_spec g g.width (r * g.width) acc (h r (List.mem_cons_self r rs))),
      ih _ (fun r hr => h r (List.mem_cons_of_mem _ hr))]
    simp

theorem display_row_bound (g : Grid) (hlen : g.cells.length = g.width * g.height)
    (r : Nat) (hr : r < g.height) : r * g.width + g.width ≤ g.cells.length := by
  have h1 : (r + 1) * g.width ≤ g.height * g.width :=
    Nat.mul_le_mul_right _ (by omega)
  have h2 : (r + 1) * g.width = r * g.width + g.width := by ring
  have h3 : g.width * g.height = g.height * g.width := Nat.mul_comm _ _
  omega

theorem displayGrid_spec (g : Grid) (hlen : g.cells.length = g.width * g.height) :
    displayGrid g = some (specRender g) := by
  rw [displayGrid, specRender,
    gridChars_spec g (List.range g.height) []
      (fun r hr => display_row_bound g hlen r (List.mem_range.1 hr))]
  simp

/-! The claims. -/

/-- C1: after `update_states`, every cell holds the transition rule applied to
its own pre-update state together with the number of `Alive` cells among its
in-bounds 8-connected neighbours in the pre-update grid (out-of-bounds offsets
are skipped, no wraparound): alive with 0–1 alive neighbours dies, alive with
2–3 stays alive, alive with 4–8 dies, dead with exactly 3 becomes alive,
anything else is unchanged.  The new state is a function of the pre-update
grid alone, so no already-updated cell is observed. -/
theorem update_states_next_cell (g : Grid) (hlen : g.cells.length = g.width * g.height)
    (i : Nat) (hi : i < g.cells.length) :
    ∃ g2 c, update_states g = some g2 ∧ g.cells[i]? = some c ∧
      g2.cells[i]? = some (lifeRule g.alive_glyph g.dead_glyph c
        (specAliveCount g (Point.mk ((i % g.width : Nat) : Int) ((i / g.width : Nat) : Int)))) := by
  have hw := width_ne_zero_of_index g hlen i hi
  obtain ⟨l, hb, hget⟩ := buildNew_get g hw g.cells 0
  refine ⟨_, g.cells[i], update_states_of_buildNew g l hb, List.getElem?_eq_getElem hi, ?_⟩
  have h := hget i
  simp only [Nat.zero_add] at h
  show l[i]? = _
  rw [h, List.getElem?_eq_getElem hi]
  simp only [Option.map_some']
  refine congrArg some ?_
  exact get_cell_state_eq_lifeRule g _ _ _
    (getNeighboursState_alive_eq g hlen _) (specAliveCount_le g _)

/-- C1 witness: the centre cell of the 3×3 example grid, index 4. -/
theorem update_states_next_cell_witness :
    ∃ g2 c, update_states centerGrid = some g2 ∧ centerGrid.cells[4]? = some c ∧
      g2.cells[4]? = some (lifeRule centerGrid.alive_glyph centerGrid.dead_glyph c
        (specAliveCount centerGrid (Point.mk ((4 % centerGrid.width : Nat) : Int)
          ((4 / centerGrid.width : Nat) : Int)))) :=
  update_states_next_cell centerGrid (by decide) 4 (by decide)

/-- C2: immediately after any `update_states` call returns, the stored
`population` equals the number of `Alive`-tagged cells in the new sequence. -/
theorem update_states_population_fresh (g g2 : Grid)
    (_hlen : g.cells.length = g.width * g.height)
    (h : update_states g = some g2) :
    g2.population = (g2.cells.filter (fun c => isAliveTag c)).length :=
  update_states_population_aux g g2 h

/-- C2 witness: advancing the 3×3 centre-alive grid one generation. -/
theorem update_states_population_fresh_witness :
    (new_empty 3 3).population =
      ((new_empty 3 3).cells.filter (fun c => isAliveTag c)).length :=
  update_states_population_fresh centerGrid (new_empty 3 3) (by decide) (by decide)

/-- C3: refuted by the code — `new_random` copies `population` from
`Self::default()` (always 0) via the `..default` spread and never scans the
generated cells, so a single true coin flip yields one `Alive` cell while
`population` stays 0. -/
theorem new_random_population_stale :
    (new_random 1 1 (fun _ => true)).population = 0 ∧
    ((new_random 1 1 (fun _ => true)).cells.filter (fun c => isAliveTag c)).length = 1 := by
  constructor <;> rfl

/-- C4: both population recomputations — the one inside `update_states` and
the one inside `new_random_custom_glyphs` — count exactly the `Alive`-tagged
cells of the sequence they scan, regardless of the glyphs those cells carry. -/
theorem population_counts_tags (g g2 : Grid)
    (_hlen : g.cells.length = g.width * g.height)
    (h : update_states g = some g2)
    (w ht : Nat) (ag dg : Char) (coins : Nat → Bool) :
    g2.population = (g2.cells.filter (fun c => isAliveTag c)).length ∧
    (new_random_custom_glyphs w ht ag dg coins).population =
      ((new_random_custom_glyphs w ht ag dg coins).cells.filter
        (fun c => isAliveTag c)).length := by
  refine ⟨update_states_population_aux g g2 h, ?_⟩
  show (((generate_random_cells (w * ht) ag dg coins).filter
      (fun c => cellEq c (CellState.Alive ag))).length) = _
  refine congrArg List.length ?_
  apply List.filter_congr
  intro x hx
  rw [generate_random_cells] at hx
  obtain ⟨i, _, hix⟩ := List.mem_map.1 hx
  rcases hco : coins i with _ | _ <;> rw [hco] at hix <;> rw [← hix] <;>
    simp [cellEq, isAliveTag]

/-- C4 witness: a generation advance and a custom-glyph construction. -/
theorem population_counts_tags_witness :
    (new_empty 3 3).population =
      ((new_empty 3 3).cells.filter (fun c => isAliveTag c)).length ∧
    (new_random_custom_glyphs 2 2 'A' 'D' (fun i => decide (i % 2 = 0))).population =
      ((new_random_custom_glyphs 2 2 'A' 'D' (fun i => decide (i % 2 = 0))).cells.filter
        (fun c => isAliveTag c)).length :=
  population_counts_tags centerGrid (new_empty 3 3) (by decide) (by decide)
    2 2 'A' 'D' (fun i => decide (i % 2 = 0))

/-- C5 counterexample: two grids with identical width, height and cell
sequences but different dead glyphs produce different resulting cell
sequences under `update_states`, so the claim as stated fails. -/
theorem update_states_glyph_dependent :
    cexGlyphA.width = cexGlyphB.width ∧ cexGlyphA.height = cexGlyphB.height ∧
    cexGlyphA.cells = cexGlyphB.cells ∧
    (update_states cexGlyphA).map Grid.cells ≠ (update_states cexGlyphB).map Grid.cells := by
  refine ⟨rfl, rfl, rfl, ?_⟩
  decide

/-- C5 (amended): two grids with identical width, height, cell sequences
*and identical alive/dead glyphs* produce identical resulting cell sequences
under `update_states` — the rule is a pure function of that snapshot,
irrespective of the stored population. -/
theorem update_states_deterministic (g1 g2 : Grid) (hw : g1.width = g2.width)
    (hh : g1.height = g2.height) (hc : g1.cells = g2.cells)
    (hd : g1.dead_glyph = g2.dead_glyph) (ha : g1.alive_glyph = g2.alive_glyph) :
    (update_states g1).map Grid.cells = (update_states g2).map Grid.cells := by
  rcases g1 with ⟨w1, h1, c1, d1, a1, p1⟩
  rcases g2 with ⟨w2, h2, c2, d2, a2, p2⟩
  have hw2 : w1 = w2 := hw
  have hh2 : h1 = h2 := hh
  have hc2 : c1 = c2 := hc
  have hd2 : d1 = d2 := hd
  have ha2 : a1 = a2 := ha
  subst hw2 hh2 hc2 hd2 ha2
  rw [update_states_pop w1 h1 c1 d1 a1 p1 p2]

/-- C5 witness: identical grids up to the stored population field. -/
theorem update_states_deterministic_witness :
    (update_states cexGlyphA).map Grid.cells = (update_states cexPopB).map Grid.cells :=
  update_states_deterministic cexGlyphA cexPopB rfl rfl rfl rfl rfl

/-- C6: `contains` is true exactly on `[0,width) × [0,height)`, and `try_get`
returns the cell at row-major index `y*width + x` when the coordinate is in
bounds and `none` (absence, not failure) otherwise. -/
theorem contains_tryGet_spec (g : Grid) (hlen : g.cells.length = g.width * g.height)
    (p : Point) :
    (contains g p = true ↔
      0 ≤ p.x ∧ p.x < (g.width : Int) ∧ 0 ≤ p.y ∧ p.y < (g.height : Int)) ∧
    (contains g p = true → tryGet g p = cellAt g p ∧ ∃ c, tryGet g p = some c) ∧
    (contains g p = false → tryGet g p = none) := by
  refine ⟨contains_iff g p, ?_, tryGet_of_not_contains g p⟩
  intro hc
  obtain ⟨heq, c, hcell⟩ := tryGet_of_contains g hlen p hc
  exact ⟨heq, c, by rw [heq]; exact hcell⟩

/-- C6 witness: the in-bounds point (1,1) of the 3×3 example grid. -/
theorem contains_tryGet_spec_witness :
    (contains centerGrid (Point.mk 1 1) = true ↔
      0 ≤ (Point.mk 1 1).x ∧ (Point.mk 1 1).x < (centerGrid.width : Int) ∧
      0 ≤ (Point.mk 1 1).y ∧ (Point.mk 1 1).y < (centerGrid.height : Int)) ∧
    (contains centerGrid (Point.mk 1 1) = true →
      tryGet centerGrid (Point.mk 1 1) = cellAt centerGrid (Point.mk 1 1) ∧
      ∃ c, tryGet centerGrid (Point.mk 1 1) = some c) ∧
    (contains centerGrid (Point.mk 1 1) = false →
      tryGet centerGrid (Point.mk 1 1) = none) :=
  contains_tryGet_spec centerGrid (by decide) (Point.mk 1 1)

/-- C7: a zero width or height yields a zero-length cell sequence from every
constructor, and `update_states` completes (returns, does not panic) on such
a degenerate grid — the division/remainder in `pos` is never reached. -/
theorem degenerate_grid_safe (w ht : Nat) (hz : w = 0 ∨ ht = 0)
    (ag dg : Char) (coins : Nat → Bool) :
    (new_empty w ht).cells.length = 0 ∧
    (new_random w ht coins).cells.length = 0 ∧
    (new_random_custom_glyphs w ht ag dg coins).cells.length = 0 ∧
    (∃ g2, update_states (new_empty w ht) = some g2) ∧
    (∃ g2, update_states (new_random w ht coins) = some g2) ∧
    (∃ g2, update_states (new_random_custom_glyphs w ht ag dg coins) = some g2) := by
  have hwh : w * ht = 0 := by rcases hz with h0 | h0 <;> simp [h0]
  have h1 : (new_empty w ht).cells.length = 0 := by simp [new_empty, hwh]
  have h2 : (new_random w ht coins).cells.length = 0 := by
    simp [new_random, generate_random_cells, hwh]
  have h3 : (new_random_custom_glyphs w ht ag dg coins).cells.length = 0 := by
    simp [new_random_custom_glyphs, generate_random_cells, hwh]
  exact ⟨h1, h2, h3,
    ⟨_, update_states_of_nil _ (List.length_eq_zero.1 h1)⟩,
    ⟨_, update_states_of_nil _ (List.length_eq_zero.1 h2)⟩,
    ⟨_, update_states_of_nil _ (List.length_eq_zero.1 h3)⟩⟩

/-- C7 witness: width 0 with height 5. -/
theorem degenerate_grid_safe_witness :
    (new_empty 0 5).cells.length = 0 ∧
    (new_random 0 5 (fun _ => true)).cells.length = 0 ∧
    (new_random_custom_glyphs 0 5 'A' 'D' (fun _ => true)).cells.length = 0 ∧
    (∃ g2, update_states (new_empty 0 5) = some g2) ∧
    (∃ g2, update_states (new_random 0 5 (fun _ => true)) = some g2) ∧
    (∃ g2, update_states (new_random_custom_glyphs 0 5 'A' 'D' (fun _ => true)) = some g2) :=
  degenerate_grid_safe 0 5 (Or.inl rfl) 'A' 'D' (fun _ => true)

/-- C8: the rendering is, row by row from the top, the glyphs of the row's
cells from left to right followed by a newline — `height` lines of `width`
characters each — and the 3×3 centre-alive grid renders as the lines
"   ", " X ", "   ", each newline-terminated. -/
theorem display_spec (g : Grid) (hlen : g.cells.length = g.width * g.height) :
    displayGrid g = some (specRender g) ∧
    (∀ r, r < g.height → ((g.cells.drop (r * g.width)).take g.width).length = g.width) ∧
    displayGrid centerGrid = some ("   \n X \n   \n".toList) := by
  refine ⟨displayGrid_spec g hlen, ?_, by decide⟩
  intro r hr
  have hb := display_row_bound g hlen r hr
  simp only [List.length_take, List.length_drop]
  omega

/-- C8 witness: the 3×3 centre-alive grid itself. -/
theorem display_spec_witness :
    displayGrid centerGrid = some (specRender centerGrid) ∧
    (∀ r, r < centerGrid.height →
      ((centerGrid.cells.drop (r * centerGrid.width)).take centerGrid.width).length =
        centerGrid.width) ∧
    displayGrid centerGrid = some ("   \n X \n   \n".toList) :=
  display_spec centerGrid (by decide)

/-- C9: `update_states` changes only `cells` and `population`: the width,
height and both glyphs are untouched, and the new cell sequence still has
length `width * height`. -/
theorem update_states_frame (g g2 : Grid) (hlen : g.cells.length = g.width * g.height)
    (h : update_states g = some g2) :
    g2.width = g.width ∧ g2.height = g.height ∧ g2.dead_glyph = g.dead_glyph ∧
    g2.alive_glyph = g.alive_glyph ∧ g2.cells.length = g.width * g.height := by
  rcases hb : buildNew g 0 g.cells with _ | nc
  · rw [update_states, hb] at h
    exact absurd h (by simp)
  · have h2 := update_states_of_buildNew g nc hb
    rw [h, Option.some.injEq] at h2
    have hl := buildNew_length g g.cells 0 nc hb
    rw [h2]
    exact ⟨rfl, rfl, rfl, rfl, hl.trans hlen⟩

/-- C9 witness: advancing the 3×3 centre-alive grid. -/
theorem update_states_frame_witness :
    (new_empty 3 3).width = centerGrid.width ∧
    (new_empty 3 3).height = centerGrid.height ∧
    (new_empty 3 3).dead_glyph = centerGrid.dead_glyph ∧
    (new_empty 3 3).alive_glyph = centerGrid.alive_glyph ∧
    (new_empty 3 3).cells.length = centerGrid.width * centerGrid.height :=
  update_states_frame centerGrid (new_empty 3 3) (by decide) (by decide)

/-- C10: unchecked indexing at the out-of-bounds coordinate (-1, y) with
1 ≤ y ≤ height silently returns the cell at linear index `y*width - 1`, the
last cell of row y-1, because `idx` computes `width*y + x` without a bounds
check. -/
theorem index_wraps_to_previous_row (g : Grid)
    (hlen : g.cells.length = g.width * g.height) (hw : 1 ≤ g.width)
    (y : Nat) (hy1 : 1 ≤ y) (hy2 : y ≤ g.height) :
    ∃ c, indexGrid g (Point.mk (-1) (y : Int)) = some c ∧
      g.cells[(y * g.width - 1)]? = some c := by
  have hyw : 1 ≤ y * g.width := by
    have := Nat.mul_le_mul hy1 hw
    omega
  have hidx : idx g (Point.mk (-1) (y : Int)) = ((y * g.width - 1 : Nat) : Int) := by
    rw [idx, Nat.cast_sub hyw]
    push_cast
    ring
  have hlt : y * g.width - 1 < g.cells.length := by
    have hle : y * g.width ≤ g.height * g.width := Nat.mul_le_mul_right _ hy2
    have hcomm : g.width * g.height = g.height * g.width := Nat.mul_comm _ _
    omega
  refine ⟨g.cells[y * g.width - 1], ?_, List.getElem?_eq_getElem hlt⟩
  rw [indexGrid, hidx, if_pos (by positivity), Int.toNat_natCast]
  exact List.getElem?_eq_getElem hlt

/-- C10 witness: the 3×3 example grid at (-1, 1), reading index 2. -/
theorem index_wraps_to_previous_row_witness :
    ∃ c, indexGrid centerGrid (Point.mk (-1) ((1 : Nat) : Int)) = some c ∧
      centerGrid.cells[(1 * centerGrid.width - 1)]? = some c :=
  index_wraps_to_previous_row centerGrid (by decide) (by decide) 1 (by decide) (by decide)

end Gridlife
